import Mathlib

/-!
Verification of the MiniTel-Lite v3.0 protocol client core
(`src/protocol/frame.js`, `src/protocol/client.js`, `src/protocol/constants.js`).

Byte buffers (Node `Buffer`) are modelled as `List Nat`, each element a byte
value `< 256`.  Machine-integer arithmetic is `Nat` with explicit `% 2^w`.
Fallible operations return `Except ProtocolError _`; a thrown JS exception is
an `Except.error`.  Node `Buffer.writeUIntNBE` validates its value range and
throws `ERR_OUT_OF_RANGE` for out-of-range values (Node >= 10); those checks
appear as explicit range tests producing `ProtocolError.errOutOfRange`.
-/

namespace MiniTel

/-- Error kinds of the client core.  The first seven mirror the string
constants of `PROTOCOL_ERRORS` in `src/protocol/constants.js`; the rest model
the remaining thrown errors: the encode-time payload-size message
(`'Payload size exceeds maximum: ...'`), the Node `ERR_OUT_OF_RANGE`
range error of `Buffer.writeUIntNBE`, `'Not connected to server'` and
`'HELLO command must be sent before DUMP'` from `src/protocol/client.js`. -/
inductive ProtocolError where
  | INVALID_NONCE
  | UNKNOWN_COMMAND
  | MALFORMED_FRAME
  | HASH_VALIDATION_FAILURE
  | INVALID_BASE64
  | CONNECTION_TIMEOUT
  | UNEXPECTED_DISCONNECTION
  | payloadTooLarge
  | errOutOfRange
  | notConnected
  | helloRequired
  deriving DecidableEq, Repr

/-- Model of `buffer.readUInt16BE(0)`: big-endian 16-bit read of the first two bytes. -/
def readUInt16BE : List Nat → Nat
  | a :: b :: _ => a * 256 + b
  | _ => 0

/-- Model of `buffer.readUInt32BE(0)`: big-endian 32-bit read of the first four bytes. -/
def readUInt32BE : List Nat → Nat
  | a :: b :: c :: d :: _ => ((a * 256 + b) * 256 + c) * 256 + d
  | _ => 0

/-- Model of `buffer.writeUInt16BE(n, 0)` on a 2-byte buffer: the two big-endian bytes
of `n` (for `n < 2^16` these are exactly `n`'s bytes). -/
def uint16BEBytes (n : Nat) : List Nat :=
  [n / 256 % 256, n % 256]

/-- Model of `buffer.writeUInt32BE(n, 0)` on a 4-byte buffer: the four big-endian bytes
of `n` (for `n < 2^32` these are exactly `n`'s bytes). -/
def uint32BEBytes (n : Nat) : List Nat :=
  [n / 2 ^ 24 % 256, n / 2 ^ 16 % 256, n / 2 ^ 8 % 256, n % 256]

/-- Big-endian 64-bit byte encoding, used for the SHA-256 length field. -/
def uint64BEBytes (n : Nat) : List Nat :=
  [n / 2 ^ 56 % 256, n / 2 ^ 48 % 256, n / 2 ^ 40 % 256, n / 2 ^ 32 % 256,
   n / 2 ^ 24 % 256, n / 2 ^ 16 % 256, n / 2 ^ 8 % 256, n % 256]

/-! ### SHA-256 (`crypto.createHash('sha256')`)

Executable model of the SHA-256 digest used by `calculateHash` in
`src/protocol/frame.js`.  Words are `Nat` values `< 2^32`; all word
arithmetic is reduced `% 2^32`. -/

/-- Right rotation of a 32-bit word by `n` bits. -/
def rotr32 (n x : Nat) : Nat :=
  x / 2 ^ n + x % 2 ^ n * 2 ^ (32 - n)

/-- Bitwise complement within 32 bits. -/
def not32 (x : Nat) : Nat := 4294967295 - x % 2 ^ 32

/-- SHA-256 round constants. -/
def sha256K : List Nat :=
  [1116352408, 1899447441, 3049323471, 3921009573, 961987163, 1508970993,
   2453635748, 2870763221, 3624381080, 310598401, 607225278, 1426881987,
   1925078388, 2162078206, 2614888103, 3248222580, 3835390401, 4022224774,
   264347078, 604807628, 770255983, 1249150122, 1555081692, 1996064986,
   2554220882, 2821834349, 2952996808, 3210313671, 3336571891, 3584528711,
   113926993, 338241895, 666307205, 773529912, 1294757372, 1396182291,
   1695183700, 1986661051, 2177026350, 2456956037, 2730485921, 2820302411,
   3259730800, 3345764771, 3516065817, 3600352804, 4094571909, 275423344,
   430227734, 506948616, 659060556, 883997877, 958139571, 1322822218,
   1537002063, 1747873779, 1955562222, 2024104815, 2227730452, 2361852424,
   2428436474, 2756734187, 3204031479, 3329325298]

/-- The eight-word SHA-256 working state. -/
structure Sha256State where
  a : Nat
  b : Nat
  c : Nat
  d : Nat
  e : Nat
  f : Nat
  g : Nat
  h : Nat
  deriving DecidableEq, Repr

/-- SHA-256 initial hash value. -/
def sha256Init : Sha256State :=
  ⟨1779033703, 3144134277, 1013904242, 2773480762,
   1359893119, 2600822924, 528734635, 1541459225⟩

/-- Split a list into consecutive chunks of `size` elements (`size > 0`);
`fuel` bounds the recursion and `l.length` fuel always suffices. -/
def chunksOf (fuel : Nat) (size : Nat) (l : List Nat) : List (List Nat) :=
  match fuel, l with
  | 0, _ => []
  | _, [] => []
  | fuel + 1, l => l.take size :: chunksOf fuel size (l.drop size)

/-- Fold four bytes into a big-endian 32-bit word. -/
def word32FromBytes (l : List Nat) : Nat :=
  l.foldl (fun acc b => acc * 256 + b) 0

/-- SHA-256 small sigma-0. -/
def ssig0 (x : Nat) : Nat := (rotr32 7 x) ^^^ (rotr32 18 x) ^^^ (x / 2 ^ 3)

/-- SHA-256 small sigma-1. -/
def ssig1 (x : Nat) : Nat := (rotr32 17 x) ^^^ (rotr32 19 x) ^^^ (x / 2 ^ 10)

/-- SHA-256 big sigma-0. -/
def bsig0 (x : Nat) : Nat := (rotr32 2 x) ^^^ (rotr32 13 x) ^^^ (rotr32 22 x)

/-- SHA-256 big sigma-1. -/
def bsig1 (x : Nat) : Nat := (rotr32 6 x) ^^^ (rotr32 11 x) ^^^ (rotr32 25 x)

/-- Extend the 16-word message schedule to 64 words (appending `fuel` words). -/
def extendSchedule (w : List Nat) : Nat → List Nat
  | 0 => w
  | fuel + 1 =>
    let n := w.length
    let next := (ssig1 (w.getD (n - 2) 0) + w.getD (n - 7) 0 +
                 ssig0 (w.getD (n - 15) 0) + w.getD (n - 16) 0) % 2 ^ 32
    extendSchedule (w ++ [next]) fuel

/-- One SHA-256 round: mix constant `k` and schedule word `w` into the state. -/
def sha256Round (st : Sha256State) (kw : Nat × Nat) : Sha256State :=
  let t1 := (st.h + bsig1 st.e + ((st.e &&& st.f) ^^^ (not32 st.e &&& st.g)) +
             kw.1 + kw.2) % 2 ^ 32
  let t2 := (bsig0 st.a +
             ((st.a &&& st.b) ^^^ (st.a &&& st.c) ^^^ (st.b &&& st.c))) % 2 ^ 32
  ⟨(t1 + t2) % 2 ^ 32, st.a, st.b, st.c, (st.d + t1) % 2 ^ 32, st.e, st.f, st.g⟩

/-- Compress one 64-byte block into the running state. -/
def sha256Block (st : Sha256State) (block : List Nat) : Sha256State :=
  let w16 := (chunksOf block.length 4 block).map word32FromBytes
  let w := extendSchedule w16 48
  let r := (sha256K.zip w).foldl sha256Round st
  ⟨(st.a + r.a) % 2 ^ 32, (st.b + r.b) % 2 ^ 32, (st.c + r.c) % 2 ^ 32,
   (st.d + r.d) % 2 ^ 32, (st.e + r.e) % 2 ^ 32, (st.f + r.f) % 2 ^ 32,
   (st.g + r.g) % 2 ^ 32, (st.h + r.h) % 2 ^ 32⟩

/-- SHA-256 padding: append `128`, zeros to 56 mod 64, then the 64-bit
big-endian bit length of the message. -/
def sha256Pad (msg : List Nat) : List Nat :=
  msg ++ 128 :: List.replicate ((64 + 55 - msg.length % 64) % 64) 0 ++
    uint64BEBytes (msg.length * 8)

/-- SHA-256 digest of a byte list: 32 bytes. -/
def sha256 (msg : List Nat) : List Nat :=
  let padded := sha256Pad msg
  let final := (chunksOf padded.length 64 padded).foldl sha256Block sha256Init
  uint32BEBytes final.a ++ uint32BEBytes final.b ++ uint32BEBytes final.c ++
    uint32BEBytes final.d ++ uint32BEBytes final.e ++ uint32BEBytes final.f ++
    uint32BEBytes final.g ++ uint32BEBytes final.h

/-! ### Base64 (`buffer.toString('base64')` / `Buffer.from(str, 'base64')`)

Node's Base64 encoder emits the standard alphabet with `=` padding and no
line breaks.  Its decoder is lenient and never throws: the input string is
read with the `'ascii'` codec (which masks each byte to 7 bits), decoding
stops entirely at the first `=` (the padding entry of the `unbase64` table
in `base64-inl.h`), other characters outside the alphabet are skipped, the
URL-safe alphabet of RFC 4648 is accepted alongside the standard one
(`-` decodes as 62 and `_` as 63), and a trailing group of 2 or 3 sextets
yields 1 or 2 bytes (a lone trailing sextet yields nothing). -/

/-- ASCII code of the Base64 alphabet character for index `n < 64`. -/
def b64CharOfIndex (n : Nat) : Nat :=
  if n < 26 then 65 + n
  else if n < 52 then 97 + (n - 26)
  else if n < 62 then 48 + (n - 52)
  else if n = 62 then 43
  else 47

/-- Base64 index of an ASCII code, as in Node's `unbase64` table: both the
standard and the RFC 4648 URL-safe alphabets are accepted (`+` and `-`
map to 62, `/` and `_` map to 63); `none` for every other character. -/
def b64IndexOfChar (c : Nat) : Option Nat :=
  if 65 ≤ c ∧ c ≤ 90 then some (c - 65)
  else if 97 ≤ c ∧ c ≤ 122 then some (c - 97 + 26)
  else if 48 ≤ c ∧ c ≤ 57 then some (c - 48 + 52)
  else if c = 43 ∨ c = 45 then some 62
  else if c = 47 ∨ c = 95 then some 63
  else none

/-- Encode bytes three at a time into four Base64 characters, padding the
final partial group with `=` (ASCII 61). -/
def b64EncodeGroups : List Nat → List Nat
  | [] => []
  | [b1] =>
    [b64CharOfIndex (b1 / 4), b64CharOfIndex (b1 % 4 * 16), 61, 61]
  | [b1, b2] =>
    [b64CharOfIndex (b1 / 4), b64CharOfIndex (b1 % 4 * 16 + b2 / 16),
     b64CharOfIndex (b2 % 16 * 4), 61]
  | b1 :: b2 :: b3 :: rest =>
    b64CharOfIndex (b1 / 4) :: b64CharOfIndex (b1 % 4 * 16 + b2 / 16) ::
    b64CharOfIndex (b2 % 16 * 4 + b3 / 64) :: b64CharOfIndex (b3 % 64) ::
    b64EncodeGroups rest

/-- Model of `binaryFrame.toString('base64')` as ASCII bytes. -/
def bufferToBase64 (l : List Nat) : List Nat := b64EncodeGroups l

/-- Decode sextet values four at a time into three bytes; a trailing group
of 2 or 3 sextets yields 1 or 2 bytes, a lone sextet yields nothing. -/
def b64DecodeGroups : List Nat → List Nat
  | i1 :: i2 :: i3 :: i4 :: rest =>
    (i1 * 4 + i2 / 16) :: (i2 % 16 * 16 + i3 / 4) :: (i3 % 4 * 64 + i4) ::
    b64DecodeGroups rest
  | [i1, i2, i3] => [i1 * 4 + i2 / 16, i2 % 16 * 16 + i3 / 4]
  | [i1, i2] => [i1 * 4 + i2 / 16]
  | _ => []

/-- Model of `Buffer.from(str, 'base64')` where `str` is the `'ascii'` view
of the given bytes: mask each byte to 7 bits, stop at the first `=`
(ASCII 61), skip the remaining non-alphabet characters, decode. -/
def bufferFromBase64 (l : List Nat) : List Nat :=
  b64DecodeGroups
    (((l.map (fun b => b % 128)).takeWhile (fun c => c != 61)).filterMap
      b64IndexOfChar)

/-! ### Frame codec (`src/protocol/frame.js`) -/

/-- Constant from `PROTOCOL_CONSTANTS` of `src/protocol/constants.js`:
`HASH_LENGTH = 32`, `NONCE_LENGTH = 4`, `CMD_LENGTH = 1`,
`LENGTH_PREFIX_SIZE = 2`, `MAX_PAYLOAD_SIZE = 65535`. -/
def MAX_PAYLOAD_SIZE : Nat := 65535

/-- Command and response codes `COMMANDS` / `RESPONSES` of `src/protocol/constants.js`. -/
def HELLO : Nat := 1
def DUMP : Nat := 2
def STOP_CMD : Nat := 3
def HELLO_ACK : Nat := 129
def DUMP_FAILED : Nat := 130
def DUMP_OK : Nat := 131
def STOP_OK : Nat := 132

/-- A decoded frame, as returned by `decodeFrame` (omitting the derived
`isValid` flag, which is always `true` on success, and the UTF-8
`payloadString` view). -/
structure Frame where
  cmd : Nat
  nonce : Nat
  payload : List Nat
  hash : List Nat
  deriving DecidableEq, Repr

/-- Model of `calculateHash(cmd, nonce, payload)`: SHA-256 over
`cmd(1 byte) ‖ nonce(4 bytes BE) ‖ payload`. -/
def calculateHash (cmd nonce : Nat) (payload : List Nat) : List Nat :=
  sha256 (cmd :: uint32BEBytes nonce ++ payload)

/-- Model of `encodeFrame(cmd, nonce, payload)`: binary frame
`cmd ‖ nonce(BE32) ‖ payload ‖ hash`, Base64-encoded, with a 2-byte
big-endian length of the Base64 portion prepended.  Throws
the payload-size error for payloads above `MAX_PAYLOAD_SIZE` and
`ERR_OUT_OF_RANGE` where a `Buffer.writeUIntNBE` value check fails
(`cmd` above 255 or `nonce` above `2^32 - 1` inside `calculateHash`;
the Base64 length above `2^16 - 1` at the final `writeUInt16BE`). -/
def encodeFrame (cmd nonce : Nat) (payload : List Nat) :
    Except ProtocolError (List Nat) :=
  if MAX_PAYLOAD_SIZE < payload.length then .error .payloadTooLarge
  else if 255 < cmd then .error .errOutOfRange
  else if 4294967295 < nonce then .error .errOutOfRange
  else
    let hash := calculateHash cmd nonce payload
    let binaryFrame := cmd :: uint32BEBytes nonce ++ payload ++ hash
    let base64Buffer := bufferToBase64 binaryFrame
    if 65535 < base64Buffer.length then .error .errOutOfRange
    else .ok (uint16BEBytes base64Buffer.length ++ base64Buffer)

/-- Model of `decodeFrame(frameData)`: length-prefix checks, Base64 decode, minimum
binary size check, field extraction and mandatory hash verification.
Node's lenient Base64 decoder never throws, so the `INVALID_BASE64`
branch of the source is unreachable; no other statement can throw, so the
source's catch-all rewrap to `MALFORMED_FRAME` never fires either. -/
def decodeFrame (frameData : List Nat) : Except ProtocolError Frame :=
  if frameData.length < 2 then .error .MALFORMED_FRAME
  else
    let dataLength := readUInt16BE frameData
    if frameData.length < 2 + dataLength then .error .MALFORMED_FRAME
    else
      let base64Data := (frameData.drop 2).take dataLength
      let binaryFrame := bufferFromBase64 base64Data
      if binaryFrame.length < 37 then .error .MALFORMED_FRAME
      else
        let cmd := binaryFrame.headD 0
        let nonce := readUInt32BE (binaryFrame.drop 1)
        let payloadLength := binaryFrame.length - 37
        let payload := (binaryFrame.drop 5).take payloadLength
        let receivedHash := binaryFrame.drop (5 + payloadLength)
        let calculatedHash := calculateHash cmd nonce payload
        if receivedHash = calculatedHash then
          .ok ⟨cmd, nonce, payload, receivedHash⟩
        else .error .HASH_VALIDATION_FAILURE

/-- Model of `getExpectedFrameLength(data)`: `null` when fewer than 2 bytes are
available, else `2 +` the declared Base64 length. -/
def getExpectedFrameLength (data : List Nat) : Option Nat :=
  if data.length < 2 then none
  else some (2 + readUInt16BE data)

/-! ### Protocol client (`src/protocol/client.js`)

`MiniTelClient`'s mutable fields (minus host/port/socket/timer) form
`ClientState`.  A command call either throws (`Except.error`) before any
transmission, or transmits one encoded frame and advances the nonce; its
result is the new state together with the transmitted wire bytes.
`_handleIncomingData` is a pure function from a state and a data chunk to a
new state plus the ordered list of events it emits; `frameTransmitted`
events (pure logging) are omitted, `frameReceived` and `error` events are
kept. -/

/-- The `lastCommand` marker: `'HELLO'`, `'DUMP'` or `'STOP_CMD'`. -/
inductive LastCommand where
  | HELLO
  | DUMP
  | STOP_CMD
  deriving DecidableEq, Repr

/-- Mutable state of a `MiniTelClient`. -/
structure ClientState where
  isConnected : Bool
  currentNonce : Nat
  lastCommand : Option LastCommand
  dumpCounter : Nat
  incomingBuffer : List Nat
  deriving DecidableEq, Repr

/-- Events observable by collaborators (command callers included): a
successfully decoded, nonce-validated frame, or an `error` emission. -/
inductive Event where
  | frameReceived (f : Frame)
  | errorEvent (e : ProtocolError)
  deriving DecidableEq, Repr

/-- The state set by the `connect()` success callback: connected, nonce 0,
no last command, dump counter 0, empty reassembly buffer. -/
def connectSuccess (_st : ClientState) : ClientState :=
  ⟨true, 0, none, 0, []⟩

/-- Model of `disconnect()`: closes the socket and clears `isConnected`; the nonce,
markers and reassembly buffer are left as they are. -/
def disconnect (st : ClientState) : ClientState :=
  { st with isConnected := false }

/-- Shared tail of `sendHello`/`sendDump`/`sendStop`: encode the command at
the current nonce, set `lastCommand`, transmit, and advance the nonce by 2
(`this.currentNonce += 2` in `_sendFrameAndWaitForResponse`). -/
def transmitCommand (st : ClientState) (cmd : Nat) (mark : LastCommand) :
    Except ProtocolError (ClientState × List Nat) :=
  (encodeFrame cmd st.currentNonce []).map fun wire =>
    ({ st with lastCommand := some mark,
               currentNonce := st.currentNonce + 2 }, wire)

/-- Model of `sendHello()`: requires `isConnected`, then transmits `HELLO`. -/
def sendHello (st : ClientState) :
    Except ProtocolError (ClientState × List Nat) :=
  if st.isConnected = false then .error .notConnected
  else transmitCommand st HELLO .HELLO

/-- Model of `sendDump()`: requires `isConnected` and that some command was
previously dispatched (`lastCommand !== null`), then transmits `DUMP`. -/
def sendDump (st : ClientState) :
    Except ProtocolError (ClientState × List Nat) :=
  if st.isConnected = false then .error .notConnected
  else if st.lastCommand = none then .error .helloRequired
  else transmitCommand st DUMP .DUMP

/-- Model of `sendStop()`: requires `isConnected`, then transmits `STOP_CMD`. -/
def sendStop (st : ClientState) :
    Except ProtocolError (ClientState × List Nat) :=
  if st.isConnected = false then .error .notConnected
  else transmitCommand st STOP_CMD .STOP_CMD

/-- The frame-extraction loop of `_handleIncomingData`, acting on the
accumulated buffer: while at least 2 bytes are buffered and the declared
envelope is complete, slice it off, decode it, validate the nonce
(`decodedFrame.nonce !== this.currentNonce - 1`, a JavaScript number
comparison, hence over `Int`), bump `dumpCounter` on `DUMP_OK`, and emit
`frameReceived`; on a decode error or nonce violation emit `error` and stop.
`fuel` bounds the iteration count; every iteration consumes at least 2
buffered bytes, so `buf.length` fuel always suffices.  Returns the emitted
events, the leftover buffer and the new dump counter. -/
def processLoop : Nat → Int → Nat → List Nat →
    List Event × List Nat × Nat
  | 0, _, dumpCounter, buf => ([], buf, dumpCounter)
  | fuel + 1, currentNonce, dumpCounter, buf =>
    if buf.length < 2 then ([], buf, dumpCounter)
    else
      match getExpectedFrameLength buf with
      | none => ([], buf, dumpCounter)
      | some expectedLength =>
        if buf.length < expectedLength then ([], buf, dumpCounter)
        else
          let frameData := buf.take expectedLength
          let rest := buf.drop expectedLength
          match decodeFrame frameData with
          | .error e => ([.errorEvent e], rest, dumpCounter)
          | .ok f =>
            if (f.nonce : Int) ≠ currentNonce - 1 then
              ([.errorEvent .INVALID_NONCE], rest, dumpCounter)
            else
              let dc := if f.cmd = DUMP_OK then dumpCounter + 1
                        else dumpCounter
              let r := processLoop fuel currentNonce dc rest
              (.frameReceived f :: r.1, r.2)

/-- Model of `_handleIncomingData(data)`: append the chunk to the reassembly buffer
and run the extraction loop.  `isConnected`, `currentNonce` and
`lastCommand` are never touched here — in particular no teardown happens on
an error. -/
def handleIncomingData (st : ClientState) (data : List Nat) :
    ClientState × List Event :=
  let buf := st.incomingBuffer ++ data
  let r := processLoop buf.length st.currentNonce st.dumpCounter buf
  ({ st with incomingBuffer := r.2.1, dumpCounter := r.2.2 }, r.1)

/-- Feed a sequence of data chunks (socket `data` events) one call at a
time, collecting all emitted events in order. -/
def feedChunks (st : ClientState) : List (List Nat) → ClientState × List Event
  | [] => (st, [])
  | c :: cs =>
    let r := handleIncomingData st c
    let r2 := feedChunks r.1 cs
    (r2.1, r.2 ++ r2.2)

/-- The frames carried by `frameReceived` events, in order. -/
def framesOf (evs : List Event) : List Frame :=
  evs.filterMap fun e =>
    match e with
    | .frameReceived f => some f
    | .errorEvent _ => none

/-- Maps `frameReceived` events to `true` and `error` emissions to `false`. -/
def isFrameEvent : Event → Bool
  | .frameReceived _ => true
  | .errorEvent _ => false

/-- The binary frame built by `encodeFrame` before Base64 encoding. -/
def binaryFrameOf (cmd nonce : Nat) (payload : List Nat) : List Nat :=
  cmd :: uint32BEBytes nonce ++ payload ++ calculateHash cmd nonce payload

/-! ### Concrete test vectors (checked against the repository's wire format) -/

deriving instance DecidableEq for Except

/-- The wire envelope `encodeFrame(HELLO, 0, '')` transmits. -/
def helloEnv : List Nat :=
  [0, 52, 65, 81, 65, 65, 65, 65, 67, 86, 101, 52, 105, 120, 74, 122, 68,
   109, 82, 117, 68, 122, 80, 84, 89, 89, 116, 51, 51, 54, 86, 53, 54, 67,
   77, 101, 80, 70, 110, 72, 69, 69, 118, 110, 70, 108, 89, 82, 121, 65, 74,
   119, 61, 61]

/-- The wire envelope `encodeFrame(STOP_CMD, 0, '')` transmits. -/
def stopEnv : List Nat :=
  [0, 52, 65, 119, 65, 65, 65, 65, 67, 109, 90, 101, 97, 120, 70, 100, 49,
   87, 47, 84, 52, 77, 105, 98, 53, 106, 72, 109, 55, 97, 106, 112, 90, 109,
   117, 67, 76, 103, 118, 88, 65, 109, 118, 119, 103, 105, 120, 76, 118, 71,
   106, 119, 61, 61]

/-- A wire envelope carrying `HELLO_ACK` at nonce 999 (valid hash): the
out-of-sequence response of the spec's nonce-violation scenario. -/
def helloAck999Env : List Nat :=
  [0, 52, 103, 81, 65, 65, 65, 43, 99, 106, 104, 118, 117, 47, 88, 73, 120,
   98, 82, 114, 54, 81, 103, 81, 66, 72, 67, 66, 57, 50, 48, 110, 54, 81,
   100, 50, 87, 116, 77, 99, 101, 87, 49, 119, 67, 90, 43, 69, 68, 56, 109,
   81, 61, 61]

/-- A wire envelope carrying `HELLO_ACK` at nonce 1 (valid hash): the
correct reply to `HELLO` sent at nonce 0. -/
def helloAck1Env : List Nat :=
  [0, 52, 103, 81, 65, 65, 65, 65, 72, 75, 56, 79, 43, 89, 100, 68, 101, 47,
   89, 68, 56, 89, 53, 56, 80, 75, 81, 84, 67, 114, 84, 107, 115, 55, 76,
   49, 103, 116, 122, 103, 104, 105, 87, 115, 112, 112, 66, 105, 117, 112,
   68, 81, 61, 61]

/-- The frame `helloAck1Env` decodes to. -/
def helloAck1Frame : Frame :=
  ⟨129, 1, [],
   [202, 240, 239, 152, 116, 55, 191, 96, 63, 24, 231, 195, 202, 65, 48,
    171, 78, 75, 59, 47, 88, 45, 206, 8, 98, 90, 202, 105, 6, 43, 169, 13]⟩

/-- A structurally valid envelope whose binary frame is 37 zero bytes: the
stored all-zero hash differs from the recomputed SHA-256. -/
def zeroFrameEnv : List Nat :=
  [0, 52] ++ List.replicate 50 65 ++ [61, 61]

/-- A mini-envelope declaring 4 Base64 bytes `"AAAA"`, which decode to only
3 binary bytes — far below the 37-byte fixed overhead. -/
def shortEnv : List Nat := [0, 4, 65, 65, 65, 65]

/-- The client state right after a successful `connect()`. -/
def freshState : ClientState := ⟨true, 0, none, 0, []⟩

/-- The client state after `sendHello()` on a fresh connection, while the
HELLO exchange is still pending. -/
def pendingHelloState : ClientState := ⟨true, 2, some .HELLO, 0, []⟩

/-! ### Basic facts about the embedded primitives -/

theorem uint32BEBytes_length (n : Nat) : (uint32BEBytes n).length = 4 := rfl

theorem uint32BEBytes_lt (n : Nat) : ∀ b ∈ uint32BEBytes n, b < 256 := by
  intro b hb
  simp only [uint32BEBytes, List.mem_cons, List.mem_singleton,
    List.not_mem_nil, or_false] at hb
  rcases hb with h | h | h | h <;> subst h <;> exact Nat.mod_lt _ (by omega)

theorem sha256_length (msg : List Nat) : (sha256 msg).length = 32 := by
  simp [sha256, uint32BEBytes]

theorem sha256_bytes_lt (msg : List Nat) : ∀ b ∈ sha256 msg, b < 256 := by
  intro b hb
  simp only [sha256, List.mem_append] at hb
  rcases hb with ((((((h | h) | h) | h) | h) | h) | h) | h <;>
    exact uint32BEBytes_lt _ _ h

theorem readUInt16BE_uint16BEBytes (n : Nat) (l : List Nat) (h : n < 65536) :
    readUInt16BE (uint16BEBytes n ++ l) = n := by
  simp only [uint16BEBytes, List.cons_append, readUInt16BE]
  omega

theorem readUInt32BE_uint32BEBytes (n : Nat) (l : List Nat)
    (h : n < 4294967296) :
    readUInt32BE (uint32BEBytes n ++ l) = n := by
  simp only [uint32BEBytes, List.cons_append, readUInt32BE]
  omega

theorem b64EncodeGroups_length (l : List Nat) :
    (b64EncodeGroups l).length = 4 * ((l.length + 2) / 3) := by
  induction l using b64EncodeGroups.induct with
  | case1 => rfl
  | case2 b1 => simp [b64EncodeGroups]
  | case3 b1 b2 => simp [b64EncodeGroups]
  | case4 b1 b2 b3 rest ih =>
    simp only [b64EncodeGroups, List.length_cons, ih]
    omega

theorem b64Char_lt_128 : ∀ i, i < 64 → b64CharOfIndex i < 128 := by decide

theorem b64Char_mod128 : ∀ i, i < 64 →
    b64CharOfIndex i % 128 = b64CharOfIndex i := by decide

theorem b64Char_ne_pad : ∀ i, i < 64 →
    (b64CharOfIndex i != 61) = true := by decide

theorem b64Index_b64Char : ∀ i, i < 64 →
    b64IndexOfChar (b64CharOfIndex i) = some i := by decide

theorem bufferFromBase64_bufferToBase64 (l : List Nat)
    (h : ∀ b ∈ l, b < 256) : bufferFromBase64 (bufferToBase64 l) = l := by
  simp only [bufferToBase64, bufferFromBase64] at *
  induction l using b64EncodeGroups.induct with
  | case1 => rfl
  | case2 b1 =>
    have h1 : b1 < 256 := h b1 (by simp)
    simp only [b64EncodeGroups, List.map_cons, List.map_nil,
      b64Char_mod128 _ (by omega : b1 / 4 < 64),
      b64Char_mod128 _ (by omega : b1 % 4 * 16 < 64),
      List.takeWhile_cons,
      b64Char_ne_pad _ (by omega : b1 / 4 < 64),
      b64Char_ne_pad _ (by omega : b1 % 4 * 16 < 64),
      Nat.reduceMod, show ((61 : Nat) != 61) = false from rfl,
      if_true, if_false, List.filterMap_cons,
      b64Index_b64Char _ (by omega : b1 / 4 < 64),
      b64Index_b64Char _ (by omega : b1 % 4 * 16 < 64),
      List.filterMap_nil, b64DecodeGroups, List.cons.injEq, and_true]
    omega
  | case3 b1 b2 =>
    have h1 : b1 < 256 := h b1 (by simp)
    have h2 : b2 < 256 := h b2 (by simp)
    simp only [b64EncodeGroups, List.map_cons, List.map_nil,
      b64Char_mod128 _ (by omega : b1 / 4 < 64),
      b64Char_mod128 _ (by omega : b1 % 4 * 16 + b2 / 16 < 64),
      b64Char_mod128 _ (by omega : b2 % 16 * 4 < 64),
      List.takeWhile_cons,
      b64Char_ne_pad _ (by omega : b1 / 4 < 64),
      b64Char_ne_pad _ (by omega : b1 % 4 * 16 + b2 / 16 < 64),
      b64Char_ne_pad _ (by omega : b2 % 16 * 4 < 64),
      Nat.reduceMod, show ((61 : Nat) != 61) = false from rfl,
      if_true, if_false, List.filterMap_cons,
      b64Index_b64Char _ (by omega : b1 / 4 < 64),
      b64Index_b64Char _ (by omega : b1 % 4 * 16 + b2 / 16 < 64),
      b64Index_b64Char _ (by omega : b2 % 16 * 4 < 64),
      List.filterMap_nil, b64DecodeGroups, List.cons.injEq, and_true]
    omega
  | case4 b1 b2 b3 rest ih =>
    have h1 : b1 < 256 := h b1 (by simp)
    have h2 : b2 < 256 := h b2 (by simp)
    have h3 : b3 < 256 := h b3 (by simp)
    have hrest : ∀ b ∈ rest, b < 256 := fun b hb => h b (by simp [hb])
    simp only [b64EncodeGroups, List.map_cons,
      b64Char_mod128 _ (by omega : b1 / 4 < 64),
      b64Char_mod128 _ (by omega : b1 % 4 * 16 + b2 / 16 < 64),
      b64Char_mod128 _ (by omega : b2 % 16 * 4 + b3 / 64 < 64),
      b64Char_mod128 _ (by omega : b3 % 64 < 64),
      List.takeWhile_cons,
      b64Char_ne_pad _ (by omega : b1 / 4 < 64),
      b64Char_ne_pad _ (by omega : b1 % 4 * 16 + b2 / 16 < 64),
      b64Char_ne_pad _ (by omega : b2 % 16 * 4 + b3 / 64 < 64),
      b64Char_ne_pad _ (by omega : b3 % 64 < 64),
      if_true, List.filterMap_cons,
      b64Index_b64Char _ (by omega : b1 / 4 < 64),
      b64Index_b64Char _ (by omega : b1 % 4 * 16 + b2 / 16 < 64),
      b64Index_b64Char _ (by omega : b2 % 16 * 4 + b3 / 64 < 64),
      b64Index_b64Char _ (by omega : b3 % 64 < 64)]
    rw [show ∀ i1 i2 i3 i4 r, b64DecodeGroups (i1 :: i2 :: i3 :: i4 :: r) =
      (i1 * 4 + i2 / 16) :: (i2 % 16 * 16 + i3 / 4) :: (i3 % 4 * 64 + i4) ::
      b64DecodeGroups r from fun _ _ _ _ _ => rfl, ih hrest]
    have e1 : b1 / 4 * 4 + (b1 % 4 * 16 + b2 / 16) / 16 = b1 := by omega
    have e2 : (b1 % 4 * 16 + b2 / 16) % 16 * 16 +
        (b2 % 16 * 4 + b3 / 64) / 4 = b2 := by omega
    have e3 : (b2 % 16 * 4 + b3 / 64) % 4 * 64 + b3 % 64 = b3 := by omega
    rw [e1, e2, e3]

/-! ### Encode/decode round trip -/

theorem binaryFrameOf_length (cmd nonce : Nat) (payload : List Nat) :
    (binaryFrameOf cmd nonce payload).length = 37 + payload.length := by
  simp only [binaryFrameOf, List.length_cons, List.length_append,
    uint32BEBytes_length, calculateHash, sha256_length]
  omega

theorem binaryFrameOf_bytes_lt (cmd nonce : Nat) (payload : List Nat)
    (hcmd : cmd < 256) (hpl : ∀ b ∈ payload, b < 256) :
    ∀ b ∈ binaryFrameOf cmd nonce payload, b < 256 := by
  intro b hb
  rw [binaryFrameOf] at hb
  rcases List.mem_cons.mp hb with rfl | h
  · exact hcmd
  · rcases List.mem_append.mp h with h1 | h1
    · rcases List.mem_append.mp h1 with h2 | h2
      · exact uint32BEBytes_lt _ _ h2
      · exact hpl _ h2
    · rw [calculateHash] at h1
      exact sha256_bytes_lt _ _ h1

/-- Under the conditions in which no `Buffer` write throws, `encodeFrame`
succeeds and its result is the length-prefixed Base64 wire envelope.
The bound `payload.length ≤ 49112` is exactly what keeps the Base64 length
within the 16-bit length prefix. -/
theorem encodeFrame_ok (cmd nonce : Nat) (payload : List Nat)
    (hcmd : cmd ≤ 255) (hnonce : nonce ≤ 4294967295)
    (hlen : payload.length ≤ 49112) :
    encodeFrame cmd nonce payload =
      .ok (uint16BEBytes (bufferToBase64 (binaryFrameOf cmd nonce payload)).length ++
           bufferToBase64 (binaryFrameOf cmd nonce payload)) := by
  have hb64 : (bufferToBase64 (binaryFrameOf cmd nonce payload)).length =
      4 * (((37 + payload.length) + 2) / 3) := by
    rw [bufferToBase64, b64EncodeGroups_length, binaryFrameOf_length]
  rw [encodeFrame]
  simp only [MAX_PAYLOAD_SIZE]
  rw [if_neg (by omega), if_neg (by omega), if_neg (by omega)]
  have : ¬ 65535 < (bufferToBase64 (binaryFrameOf cmd nonce payload)).length := by
    rw [hb64]; omega
  simp only [binaryFrameOf] at this ⊢
  rw [if_neg this]

/-- Decoding the wire envelope produced for `(cmd, nonce, payload)` yields
exactly that frame, with the stored hash equal to the recomputed hash. -/
theorem decodeFrame_encoded (cmd nonce : Nat) (payload : List Nat)
    (hcmd : cmd ≤ 255) (hnonce : nonce ≤ 4294967295)
    (hlen : payload.length ≤ 49112) (hpl : ∀ b ∈ payload, b < 256) :
    decodeFrame
      (uint16BEBytes (bufferToBase64 (binaryFrameOf cmd nonce payload)).length ++
       bufferToBase64 (binaryFrameOf cmd nonce payload)) =
      .ok ⟨cmd, nonce, payload, calculateHash cmd nonce payload⟩ := by
  set bin := binaryFrameOf cmd nonce payload with hbin
  set b64 := bufferToBase64 bin with hb64
  have hbinlen : bin.length = 37 + payload.length := binaryFrameOf_length ..
  have hb64len : b64.length = 4 * (((37 + payload.length) + 2) / 3) := by
    rw [hb64, bufferToBase64, b64EncodeGroups_length, hbinlen]
  have hb64small : b64.length < 65536 := by omega
  have hwirelen :
      (uint16BEBytes b64.length ++ b64).length = 2 + b64.length := by
    simp [uint16BEBytes]; omega
  have hdrop2 : (uint16BEBytes b64.length ++ b64).drop 2 = b64 :=
    List.drop_left' rfl
  have hround : bufferFromBase64 b64 = bin := by
    rw [hb64]
    exact bufferFromBase64_bufferToBase64 _
      (binaryFrameOf_bytes_lt _ _ _ (by omega) hpl)
  rw [decodeFrame]
  simp only []
  rw [if_neg (by rw [hwirelen]; omega)]
  rw [readUInt16BE_uint16BEBytes _ _ hb64small]
  rw [if_neg (by rw [hwirelen]; omega)]
  rw [hdrop2, List.take_length, hround]
  rw [if_neg (by omega)]
  have hhead : bin.headD 0 = cmd := by rw [hbin]; rfl
  have hdrop1 : bin.drop 1 = uint32BEBytes nonce ++ (payload ++
      calculateHash cmd nonce payload) := by
    rw [hbin, binaryFrameOf]
    simp [List.append_assoc]
  have hnonce' : readUInt32BE (bin.drop 1) = nonce := by
    rw [hdrop1]; exact readUInt32BE_uint32BEBytes _ _ (by omega)
  have hplen : bin.length - 37 = payload.length := by omega
  have hdrop5 : bin.drop 5 = payload ++ calculateHash cmd nonce payload := by
    have h15 : (1 : Nat) + 4 = 5 := rfl
    rw [← h15, ← List.drop_drop, hdrop1]
    exact List.drop_left' (uint32BEBytes_length nonce)
  have hpay : (bin.drop 5).take (bin.length - 37) = payload := by
    rw [hplen, hdrop5]
    exact List.take_left' rfl
  have hrecv : bin.drop (5 + (bin.length - 37)) =
      calculateHash cmd nonce payload := by
    rw [hplen, ← List.drop_drop, hdrop5]
    exact List.drop_left' rfl
  rw [hhead, hnonce', hpay, hrecv, if_pos rfl]

/-! ### Frame-extraction loop: fuel adequacy and chunk insensitivity -/

theorem readUInt16BE_append (buf extra : List Nat) (h : 2 ≤ buf.length) :
    readUInt16BE (buf ++ extra) = readUInt16BE buf := by
  match buf with
  | [] => simp at h
  | [_] => simp at h
  | _ :: _ :: _ => rfl

/-- Loop stop: fewer than 2 buffered bytes. -/
theorem processLoop_stop_short (fuel : Nat) (n : Int) (dc : Nat)
    (buf : List Nat) (h2 : buf.length < 2) :
    processLoop fuel n dc buf = ([], buf, dc) := by
  cases fuel with
  | zero => rfl
  | succ f => simp [processLoop, h2]

/-- Loop stop: the declared envelope is longer than the buffer. -/
theorem processLoop_stop_incomplete (fuel : Nat) (n : Int) (dc : Nat)
    (buf : List Nat) (h2 : ¬ buf.length < 2)
    (h3 : buf.length < 2 + readUInt16BE buf) :
    processLoop fuel n dc buf = ([], buf, dc) := by
  cases fuel with
  | zero => rfl
  | succ f => simp [processLoop, getExpectedFrameLength, h2, h3]

/-- Loop step: the extracted envelope fails to decode. -/
theorem processLoop_step_error (fuel : Nat) (n : Int) (dc : Nat)
    (buf : List Nat) (e : ProtocolError) (h2 : ¬ buf.length < 2)
    (h3 : ¬ buf.length < 2 + readUInt16BE buf)
    (hdec : decodeFrame (buf.take (2 + readUInt16BE buf)) = .error e) :
    processLoop (fuel + 1) n dc buf =
      ([.errorEvent e], buf.drop (2 + readUInt16BE buf), dc) := by
  simp [processLoop, getExpectedFrameLength, h2, h3, hdec]

/-- Loop step: the envelope decodes but carries the wrong nonce. -/
theorem processLoop_step_badnonce (fuel : Nat) (n : Int) (dc : Nat)
    (buf : List Nat) (fr : Frame) (h2 : ¬ buf.length < 2)
    (h3 : ¬ buf.length < 2 + readUInt16BE buf)
    (hdec : decodeFrame (buf.take (2 + readUInt16BE buf)) = .ok fr)
    (hn : (fr.nonce : Int) ≠ n - 1) :
    processLoop (fuel + 1) n dc buf =
      ([.errorEvent .INVALID_NONCE], buf.drop (2 + readUInt16BE buf), dc) := by
  simp [processLoop, getExpectedFrameLength, h2, h3, hdec, hn]

/-- Loop step: the envelope decodes with the expected nonce and is yielded. -/
theorem processLoop_step_ok (fuel : Nat) (n : Int) (dc : Nat)
    (buf : List Nat) (fr : Frame) (h2 : ¬ buf.length < 2)
    (h3 : ¬ buf.length < 2 + readUInt16BE buf)
    (hdec : decodeFrame (buf.take (2 + readUInt16BE buf)) = .ok fr)
    (hn : (fr.nonce : Int) = n - 1) :
    processLoop (fuel + 1) n dc buf =
      (Event.frameReceived fr ::
        (processLoop fuel n (if fr.cmd = DUMP_OK then dc + 1 else dc)
          (buf.drop (2 + readUInt16BE buf))).1,
       (processLoop fuel n (if fr.cmd = DUMP_OK then dc + 1 else dc)
          (buf.drop (2 + readUInt16BE buf))).2) := by
  simp [processLoop, getExpectedFrameLength, h2, h3, hdec, hn]

/-- Any fuel at least the buffer length gives the same result: every
iteration consumes at least two buffered bytes. -/
theorem processLoop_fuel_eq (fuel fuel' : Nat) (n : Int) (dc : Nat)
    (buf : List Nat) (h : buf.length ≤ fuel) (h' : buf.length ≤ fuel') :
    processLoop fuel n dc buf = processLoop fuel' n dc buf := by
  induction fuel generalizing fuel' dc buf with
  | zero =>
    rw [processLoop_stop_short 0 n dc buf (by omega),
      processLoop_stop_short fuel' n dc buf (by omega)]
  | succ f ih =>
    by_cases h2 : buf.length < 2
    · rw [processLoop_stop_short _ n dc buf h2,
        processLoop_stop_short fuel' n dc buf h2]
    · by_cases h3 : buf.length < 2 + readUInt16BE buf
      · rw [processLoop_stop_incomplete _ n dc buf h2 h3,
          processLoop_stop_incomplete fuel' n dc buf h2 h3]
      · cases fuel' with
        | zero => omega
        | succ f' =>
          have hrest : (buf.drop (2 + readUInt16BE buf)).length ≤ f ∧
              (buf.drop (2 + readUInt16BE buf)).length ≤ f' := by
            simp only [List.length_drop]
            omega
          cases hdec : decodeFrame (buf.take (2 + readUInt16BE buf)) with
          | error e =>
            rw [processLoop_step_error f n dc buf e h2 h3 hdec,
              processLoop_step_error f' n dc buf e h2 h3 hdec]
          | ok fr =>
            by_cases hn : (fr.nonce : Int) = n - 1
            · rw [processLoop_step_ok f n dc buf fr h2 h3 hdec hn,
                processLoop_step_ok f' n dc buf fr h2 h3 hdec hn,
                ih f' _ _ hrest.1 hrest.2]
            · rw [processLoop_step_badnonce f n dc buf fr h2 h3 hdec hn,
                processLoop_step_badnonce f' n dc buf fr h2 h3 hdec hn]

/-- Processing `buf ++ extra` splits into processing `buf` first and then
the leftover plus `extra`, provided the combined run emits no `error`
events (on an error the loop stops early, deliberately leaving the tail
unprocessed until the next `data` event). -/
theorem processLoop_append (fuel : Nat) (n : Int) (dc : Nat)
    (buf extra : List Nat) (hf : buf.length ≤ fuel)
    (hne : ((processLoop (buf ++ extra).length n dc
      (buf ++ extra)).1.all isFrameEvent) = true) :
    processLoop (buf ++ extra).length n dc (buf ++ extra) =
      ((processLoop fuel n dc buf).1 ++
        (processLoop ((processLoop fuel n dc buf).2.1 ++ extra).length n
          (processLoop fuel n dc buf).2.2
          ((processLoop fuel n dc buf).2.1 ++ extra)).1,
       (processLoop ((processLoop fuel n dc buf).2.1 ++ extra).length n
          (processLoop fuel n dc buf).2.2
          ((processLoop fuel n dc buf).2.1 ++ extra)).2) := by
  induction fuel generalizing dc buf with
  | zero =>
    have hb : buf = [] := List.eq_nil_of_length_eq_zero (by omega)
    subst hb
    simp [processLoop_stop_short 0 n dc [] (by simp)]
  | succ f ih =>
    by_cases h2 : buf.length < 2
    · simp [processLoop_stop_short (f + 1) n dc buf h2]
    · by_cases h3 : buf.length < 2 + readUInt16BE buf
      · simp [processLoop_stop_incomplete (f + 1) n dc buf h2 h3]
      · -- a complete envelope sits at the front of `buf`; both runs
        -- extract exactly it
        have h2' : ¬ (buf ++ extra).length < 2 := by
          simp only [List.length_append]; omega
        have hread : readUInt16BE (buf ++ extra) = readUInt16BE buf :=
          readUInt16BE_append _ _ (by omega)
        have h3' : ¬ (buf ++ extra).length < 2 + readUInt16BE (buf ++ extra) := by
          simp only [List.length_append, hread]; omega
        have htake : (buf ++ extra).take (2 + readUInt16BE (buf ++ extra)) =
            buf.take (2 + readUInt16BE buf) := by
          rw [hread]
          exact List.take_append_of_le_length (by omega)
        have hdrop : (buf ++ extra).drop (2 + readUInt16BE (buf ++ extra)) =
            buf.drop (2 + readUInt16BE buf) ++ extra := by
          rw [hread]
          exact List.drop_append_of_le_length (by omega)
        obtain ⟨k, hk⟩ : ∃ k, (buf ++ extra).length = k + 1 := by
          refine ⟨(buf ++ extra).length - 1, ?_⟩
          simp only [List.length_append]; omega
        cases hdec : decodeFrame (buf.take (2 + readUInt16BE buf)) with
        | error e =>
          rw [hk, processLoop_step_error k n dc (buf ++ extra) e h2' h3'
            (by rw [htake]; exact hdec)] at hne
          simp [isFrameEvent] at hne
        | ok fr =>
          by_cases hn : (fr.nonce : Int) = n - 1
          · have hstepL := processLoop_step_ok k n dc (buf ++ extra) fr h2' h3'
              (by rw [htake]; exact hdec) hn
            rw [hk] at hne ⊢
            rw [hstepL] at hne ⊢
            rw [hdrop] at hne ⊢
            rw [processLoop_step_ok f n dc buf fr h2 h3 hdec hn]
            set dc2 := if fr.cmd = DUMP_OK then dc + 1 else dc with hdc2
            have hlenrest : (buf.drop (2 + readUInt16BE buf)).length ≤ f := by
              simp only [List.length_drop]; omega
            have hstab : processLoop k n dc2
                (buf.drop (2 + readUInt16BE buf) ++ extra) =
                processLoop ((buf.drop (2 + readUInt16BE buf) ++ extra).length)
                  n dc2 (buf.drop (2 + readUInt16BE buf) ++ extra) := by
              apply processLoop_fuel_eq
              · simp only [List.length_append, List.length_drop] at hk ⊢
                omega
              · rfl
            simp only [List.all_cons, Bool.and_eq_true] at hne
            rw [hstab] at hne ⊢
            rw [ih dc2 (buf.drop (2 + readUInt16BE buf)) hlenrest hne.2]
            simp [List.cons_append]
          · rw [hk, processLoop_step_badnonce k n dc (buf ++ extra) fr h2' h3'
              (by rw [htake]; exact hdec) hn] at hne
            simp [isFrameEvent] at hne

/-- Two `data` events are equivalent to one carrying the concatenation,
provided the combined processing emits no `error` event. -/
theorem handleIncomingData_append (st : ClientState) (d1 d2 : List Nat)
    (hne : ((handleIncomingData st (d1 ++ d2)).2.all isFrameEvent) = true) :
    handleIncomingData st (d1 ++ d2) =
      ((handleIncomingData (handleIncomingData st d1).1 d2).1,
       (handleIncomingData st d1).2 ++
         (handleIncomingData (handleIncomingData st d1).1 d2).2) := by
  have hassoc : st.incomingBuffer ++ (d1 ++ d2) =
      (st.incomingBuffer ++ d1) ++ d2 := (List.append_assoc ..).symm
  simp only [handleIncomingData] at hne ⊢
  rw [hassoc] at hne ⊢
  have happ := processLoop_append (st.incomingBuffer ++ d1).length
    st.currentNonce st.dumpCounter (st.incomingBuffer ++ d1) d2 le_rfl hne
  rw [happ]

/-- Feeding any nonempty sequence of chunks is equivalent to feeding their
concatenation in a single `data` event, provided the single-shot run
emits no `error` event. -/
theorem feedChunks_eq_flatten (chunks : List (List Nat)) (st : ClientState)
    (hc : chunks ≠ [])
    (hne : ((handleIncomingData st chunks.flatten).2.all isFrameEvent) = true) :
    feedChunks st chunks = handleIncomingData st chunks.flatten := by
  induction chunks generalizing st with
  | nil => exact absurd rfl hc
  | cons c cs ih =>
    cases cs with
    | nil =>
      simp only [feedChunks, List.flatten_cons, List.flatten_nil,
        List.append_nil]
    | cons c2 cs2 =>
      have hflat : (c :: c2 :: cs2).flatten = c ++ (c2 :: cs2).flatten := by
        simp
      rw [hflat] at hne ⊢
      have happ := handleIncomingData_append st c (c2 :: cs2).flatten hne
      have hne2 : ((handleIncomingData (handleIncomingData st c).1
          (c2 :: cs2).flatten).2.all isFrameEvent) = true := by
        rw [happ] at hne
        simp only [List.all_append, Bool.and_eq_true] at hne
        exact hne.2
      rw [happ, feedChunks, ih _ (by simp) hne2]

/-- Every frame the loop yields carries nonce `currentNonce - 1`. -/
theorem processLoop_frame_nonce (fuel : Nat) (n : Int) (dc : Nat)
    (buf : List Nat) (g : Frame)
    (hg : Event.frameReceived g ∈ (processLoop fuel n dc buf).1) :
    (g.nonce : Int) = n - 1 := by
  induction fuel generalizing dc buf with
  | zero => simp [processLoop] at hg
  | succ f ih =>
    by_cases h2 : buf.length < 2
    · rw [processLoop_stop_short _ n dc buf h2] at hg
      simp at hg
    · by_cases h3 : buf.length < 2 + readUInt16BE buf
      · rw [processLoop_stop_incomplete _ n dc buf h2 h3] at hg
        simp at hg
      · cases hdec : decodeFrame (buf.take (2 + readUInt16BE buf)) with
        | error e =>
          rw [processLoop_step_error f n dc buf e h2 h3 hdec] at hg
          simp at hg
        | ok fr =>
          by_cases hn : (fr.nonce : Int) = n - 1
          · rw [processLoop_step_ok f n dc buf fr h2 h3 hdec hn] at hg
            rcases List.mem_cons.mp hg with h | h
            · obtain rfl : g = fr := by injection h
              exact hn
            · exact ih _ _ h
          · rw [processLoop_step_badnonce f n dc buf fr h2 h3 hdec hn] at hg
            simp at hg

/-! ### Claim theorems -/

set_option maxRecDepth 10000

/-- Claim C8 — `decodeFrame` fails with `MALFORMED_FRAME` whenever the input
holds fewer than 2 bytes, and whenever the declared length-prefix value
exceeds the bytes actually present after the prefix; no frame is
produced in either case. -/
theorem c8_malformed_length_checks :
    (∀ w : List Nat, w.length < 2 →
      decodeFrame w = .error .MALFORMED_FRAME) ∧
    (∀ w : List Nat, 2 ≤ w.length → w.length < 2 + readUInt16BE w →
      decodeFrame w = .error .MALFORMED_FRAME) := by
  constructor
  · intro w h1
    rw [decodeFrame, if_pos h1]
  · intro w h1 h2
    rw [decodeFrame, if_neg (by omega)]
    simp only []
    rw [if_pos h2]

/-- Witness for claim C8: a 1-byte buffer and a buffer declaring 10 Base64 bytes
while holding 1. -/
theorem c8_witness :
    decodeFrame [7] = .error .MALFORMED_FRAME ∧
    decodeFrame [0, 10, 65] = .error .MALFORMED_FRAME :=
  ⟨c8_malformed_length_checks.1 [7] (by decide),
   c8_malformed_length_checks.2 [0, 10, 65] (by decide) (by decide)⟩

/-- Counterexample for claim C9: the claim says a Base64 region that decodes to
fewer than 37 bytes yields `INVALID_BASE64`, but `decodeFrame` on the
envelope `[0,4] ++ "AAAA"` (4 Base64 bytes decoding to 3 binary bytes)
throws `MALFORMED_FRAME`, not `INVALID_BASE64`. -/
theorem c9_counterexample :
    decodeFrame shortEnv = .error .MALFORMED_FRAME ∧
    decodeFrame shortEnv ≠ .error .INVALID_BASE64 := by decide

/-- Claim C9 amended — `decodeFrame` never fails with `INVALID_BASE64`
(Node's lenient Base64 decoder cannot throw, so that branch is dead
code), and a structurally valid envelope whose Base64 region decodes to
fewer than the 37-byte fixed overhead fails with `MALFORMED_FRAME`. -/
theorem c9_short_binary_is_malformed :
    (∀ w : List Nat, decodeFrame w ≠ .error .INVALID_BASE64) ∧
    (∀ w : List Nat, 2 ≤ w.length → 2 + readUInt16BE w ≤ w.length →
      (bufferFromBase64 ((w.drop 2).take (readUInt16BE w))).length < 37 →
      decodeFrame w = .error .MALFORMED_FRAME) := by
  constructor
  · intro w h
    rw [decodeFrame] at h
    simp only [] at h
    split_ifs at h <;> simp_all
  · intro w h1 h2 h3
    rw [decodeFrame, if_neg (by omega)]
    simp only []
    rw [if_neg (by omega), if_pos h3]

/-- Witness for claim C9: the short-binary envelope yields `MALFORMED_FRAME`,
and the all-zero envelope (hash mismatch) does not yield
`INVALID_BASE64`. -/
theorem c9_witness :
    decodeFrame [0, 4, 65, 65, 65, 65] = .error .MALFORMED_FRAME ∧
    decodeFrame zeroFrameEnv ≠ .error .INVALID_BASE64 :=
  ⟨c9_short_binary_is_malformed.2 [0, 4, 65, 65, 65, 65] (by decide)
      (by decide) (by decide),
   c9_short_binary_is_malformed.1 zeroFrameEnv⟩

/-- Claim C2 — on any successful decode the returned frame's stored hash
equals the recomputed `SHA-256(cmd ‖ nonce(BE32) ‖ payload)` (no frame is
ever returned without passing the check), and on any structurally valid
wire buffer the decode fails with `HASH_VALIDATION_FAILURE` exactly when
the stored trailing 32 bytes differ from the recomputed hash. -/
theorem c2_hash_validation_mandatory :
    (∀ (w : List Nat) (f : Frame), decodeFrame w = .ok f →
      f.hash = calculateHash f.cmd f.nonce f.payload) ∧
    (∀ (w bin : List Nat),
      bin = bufferFromBase64 ((w.drop 2).take (readUInt16BE w)) →
      2 ≤ w.length → 2 + readUInt16BE w ≤ w.length → 37 ≤ bin.length →
      (decodeFrame w = .error .HASH_VALIDATION_FAILURE ↔
        bin.drop (5 + (bin.length - 37)) ≠
          calculateHash (bin.headD 0) (readUInt32BE (bin.drop 1))
            ((bin.drop 5).take (bin.length - 37)))) := by
  constructor
  · intro w f h
    rw [decodeFrame] at h
    simp only [] at h
    split_ifs at h with h1 h2 h3 h4
    obtain rfl := Except.ok.inj h
    simpa using h4
  · intro w bin hbin h1 h2 h3
    subst hbin
    rw [decodeFrame, if_neg (by omega)]
    simp only []
    rw [if_neg (by omega), if_neg (by omega)]
    by_cases hh : (bufferFromBase64 ((w.drop 2).take (readUInt16BE w))).drop
        (5 + ((bufferFromBase64 ((w.drop 2).take (readUInt16BE w))).length - 37)) =
        calculateHash
          ((bufferFromBase64 ((w.drop 2).take (readUInt16BE w))).headD 0)
          (readUInt32BE ((bufferFromBase64 ((w.drop 2).take (readUInt16BE w))).drop 1))
          (((bufferFromBase64 ((w.drop 2).take (readUInt16BE w))).drop 5).take
            ((bufferFromBase64 ((w.drop 2).take (readUInt16BE w))).length - 37)) <;>
      simp [hh]

/-- Witness for claim C2: the all-zero binary frame (stored hash 32 zero bytes)
fails hash validation, and the genuine `HELLO` envelope decodes to a
frame whose stored hash equals the recomputed hash. -/
theorem c2_witness :
    decodeFrame zeroFrameEnv = .error .HASH_VALIDATION_FAILURE ∧
    (⟨1, 0, [],
      [149, 123, 136, 177, 39, 48, 230, 70, 224, 243, 61, 54, 24, 183, 125,
       250, 87, 158, 130, 49, 227, 197, 156, 113, 4, 190, 113, 101, 97, 28,
       128, 39]⟩ : Frame).hash =
      calculateHash 1 0 [] := by
  refine ⟨(c2_hash_validation_mandatory.2 zeroFrameEnv _ rfl (by decide)
    (by decide) (by decide)).mpr (by decide), ?_⟩
  exact c2_hash_validation_mandatory.1 helloEnv _ (by decide)

/-- For payload lengths in `[49113, 65535]` the payload-size check passes
but the Base64 portion is longer than 65535 bytes, so the final
`writeUInt16BE` of the length prefix throws `ERR_OUT_OF_RANGE`. -/
theorem encodeFrame_overflow (cmd nonce : Nat) (payload : List Nat)
    (hcmd : cmd ≤ 255) (hnonce : nonce ≤ 4294967295)
    (hlen1 : payload.length ≤ 65535) (hlen2 : 49113 ≤ payload.length) :
    encodeFrame cmd nonce payload = .error .errOutOfRange := by
  have hb64 : (bufferToBase64 (cmd :: uint32BEBytes nonce ++ payload ++
      calculateHash cmd nonce payload)).length =
      4 * ((37 + payload.length + 2) / 3) := by
    rw [bufferToBase64, b64EncodeGroups_length]
    simp only [List.length_cons, List.length_append, uint32BEBytes_length,
      calculateHash, sha256_length]
    omega
  rw [encodeFrame]
  simp only []
  rw [if_neg (by simp only [MAX_PAYLOAD_SIZE]; omega), if_neg (by omega),
    if_neg (by omega), if_pos (by rw [hb64]; omega)]

/-- Counterexample for claim C1: the claim quantifies over payload lengths up to
65535, but at length 65535 the Base64 portion is 87432 bytes long, so the
final `writeUInt16BE` of the length prefix throws `ERR_OUT_OF_RANGE` —
`decodeFrame ∘ encodeFrame` cannot succeed.  (The repository's own test
acknowledges this, capping its "maximum practical payload" at 49100.) -/
theorem c1_counterexample :
    encodeFrame HELLO 0 (List.replicate 65535 120) = .error .errOutOfRange :=
  encodeFrame_overflow HELLO 0 (List.replicate 65535 120)
    (by norm_num [HELLO]) (by norm_num)
    (by rw [List.length_replicate]) (by rw [List.length_replicate]; omega)

/-- Claim C1 amended — for every command byte in the protocol's command and
response sets, every nonce below `2^32`, and every byte payload of length
at most 49112 (the largest length whose Base64 envelope fits the 16-bit
length prefix), `decodeFrame (encodeFrame cmd nonce payload)` succeeds and
returns exactly the original command, nonce and payload, with the stored
hash equal to the recomputed hash (hash validation passed). -/
theorem c1_roundtrip (cmd nonce : Nat) (payload : List Nat)
    (hcmd : cmd ∈ [HELLO, DUMP, STOP_CMD, HELLO_ACK, DUMP_FAILED, DUMP_OK,
      STOP_OK])
    (hnonce : nonce ≤ 4294967295)
    (hpl : ∀ b ∈ payload, b < 256)
    (hlen : payload.length ≤ 49112) :
    (encodeFrame cmd nonce payload).bind decodeFrame =
      .ok ⟨cmd, nonce, payload, calculateHash cmd nonce payload⟩ := by
  have hc : cmd ≤ 255 := by
    simp only [HELLO, DUMP, STOP_CMD, HELLO_ACK, DUMP_FAILED, DUMP_OK,
      STOP_OK, List.mem_cons, List.not_mem_nil, or_false] at hcmd
    omega
  rw [encodeFrame_ok cmd nonce payload hc hnonce hlen]
  simp only [Except.bind]
  exact decodeFrame_encoded cmd nonce payload hc hnonce hlen hpl

/-- Witness for claim C1: the `HELLO` frame at nonce 0 with empty payload
round-trips. -/
theorem c1_roundtrip_witness :
    (encodeFrame HELLO 0 []).bind decodeFrame =
      .ok ⟨HELLO, 0, [], calculateHash HELLO 0 []⟩ :=
  c1_roundtrip HELLO 0 [] (by simp) (by norm_num) (by simp) (by simp)

/-- Claim C3 — while an exchange sent at nonce `N` is outstanding
(`currentNonce = N + 2` after the transmit-time advance), a buffered
envelope that decodes successfully but carries a nonce other than `N + 1`
makes `_handleIncomingData` emit exactly one `INVALID_NONCE` error event
and yield no frame; moreover, any `frameReceived` event ever emitted in
such a state carries nonce exactly `N + 1`, so the pending exchange can
never resolve with an out-of-sequence frame. -/
theorem c3_invalid_nonce_fatal (N : Nat) (st : ClientState)
    (data env rest : List Nat) (f : Frame)
    (hN : st.currentNonce = N + 2)
    (hbuf : st.incomingBuffer ++ data = env ++ rest)
    (henv2 : 2 ≤ env.length)
    (henvlen : env.length = 2 + readUInt16BE env)
    (hdec : decodeFrame env = .ok f)
    (hnonce : f.nonce ≠ N + 1) :
    (handleIncomingData st data).2 = [.errorEvent .INVALID_NONCE] ∧
    (∀ g, Event.frameReceived g ∉ (handleIncomingData st data).2) ∧
    (∀ (st' : ClientState) (data' : List Nat) (g : Frame),
      st'.currentNonce = N + 2 →
      Event.frameReceived g ∈ (handleIncomingData st' data').2 →
      g.nonce = N + 1) := by
  have hmain : (handleIncomingData st data).2 =
      [.errorEvent .INVALID_NONCE] := by
    simp only [handleIncomingData]
    rw [hbuf]
    have h2 : ¬ (env ++ rest).length < 2 := by
      simp only [List.length_append]; omega
    have hread : readUInt16BE (env ++ rest) = readUInt16BE env :=
      readUInt16BE_append _ _ henv2
    have h3 : ¬ (env ++ rest).length < 2 + readUInt16BE (env ++ rest) := by
      simp only [List.length_append, hread]; omega
    have htake : (env ++ rest).take (2 + readUInt16BE (env ++ rest)) = env := by
      rw [hread, ← henvlen]
      exact List.take_left env rest
    obtain ⟨k, hk⟩ : ∃ k, (env ++ rest).length = k + 1 := by
      refine ⟨(env ++ rest).length - 1, ?_⟩
      simp only [List.length_append]; omega
    rw [hk, processLoop_step_badnonce k st.currentNonce st.dumpCounter
      (env ++ rest) f h2 h3 (by rw [htake]; exact hdec)
      (by rw [hN]; push_cast; omega)]
  refine ⟨hmain, ?_, ?_⟩
  · intro g hg
    rw [hmain] at hg
    simp at hg
  · intro st' data' g hN' hg
    simp only [handleIncomingData] at hg
    have := processLoop_frame_nonce _ _ _ _ _ hg
    rw [hN'] at this
    omega

/-- Witness for claim C3: after `sendHello()` at nonce 0 (`currentNonce = 2`),
a hash-valid `HELLO_ACK` carrying nonce 999 produces exactly one
`INVALID_NONCE` error event. -/
theorem c3_witness :
    (handleIncomingData pendingHelloState helloAck999Env).2 =
      [.errorEvent .INVALID_NONCE] :=
  (c3_invalid_nonce_fatal 0 pendingHelloState helloAck999Env
    helloAck999Env [] ⟨129, 999, [],
      [35, 134, 251, 191, 92, 140, 91, 70, 190, 144, 129, 0, 71, 8, 31,
       118, 210, 126, 144, 119, 101, 173, 49, 199, 150, 215, 0, 153, 248,
       64, 252, 153]⟩
    (by decide) (by decide) (by decide) (by decide) (by decide)
    (by decide)).1

/-- Claim C4 — the spec (and the source's own comments, "Immediate
disconnection on nonce violation" / "All protocol errors result in
immediate disconnection as per spec") say a nonce violation tears the
connection down, but `_handleIncomingData` only emits the `error` event
and returns: `isConnected` stays `true`, and a subsequent `sendHello()`
on the very same state still succeeds and transmits a frame. -/
theorem c4_no_teardown_on_protocol_error :
    (handleIncomingData pendingHelloState helloAck999Env).2 =
      [.errorEvent .INVALID_NONCE] ∧
    (handleIncomingData pendingHelloState helloAck999Env).1.isConnected = true ∧
    (sendHello
      (handleIncomingData pendingHelloState helloAck999Env).1).toOption.isSome
      = true := by decide

/-- A transmit that returns `.ok` advanced the nonce by exactly 2. -/
theorem transmitCommand_nonce (st st' : ClientState) (w : List Nat)
    (cmd : Nat) (mark : LastCommand)
    (h : transmitCommand st cmd mark = .ok (st', w)) :
    st'.currentNonce = st.currentNonce + 2 := by
  rw [transmitCommand] at h
  cases henc : encodeFrame cmd st.currentNonce [] with
  | error e => rw [henc] at h; simp [Except.map] at h
  | ok v =>
    rw [henc] at h
    simp only [Except.map, Except.ok.injEq, Prod.mk.injEq] at h
    rw [← h.1]

/-- Counterexample for claim C5: after `connect()` and a first `sendHello()`
(whose exchange is still pending — no response has been processed), a
second `sendHello()` is not rejected: it returns successfully with a
frame that is transmitted.  The claimed dedicated rejection error does
not exist in the code. -/
theorem c5_counterexample :
    (sendHello freshState).map Prod.fst = .ok pendingHelloState ∧
    (sendHello pendingHelloState).toOption.isSome = true := by decide

/-- Claim C5 amended — the client keeps no record of an outstanding
`PendingExchange` that its send methods could consult: `sendHello` and
`sendStop` check only `isConnected`, and `sendDump` additionally only the
`lastCommand` marker, so in any connected state (pending exchange or not)
a further call succeeds and transmits another frame — commands can be
pipelined. -/
theorem c5_no_concurrent_send_guard (st : ClientState)
    (hconn : st.isConnected = true)
    (hn : st.currentNonce ≤ 4294967295) :
    (sendHello st).toOption.isSome = true ∧
    (sendStop st).toOption.isSome = true ∧
    (st.lastCommand ≠ none → (sendDump st).toOption.isSome = true) := by
  refine ⟨?_, ?_, fun hlast => ?_⟩
  · rw [sendHello, if_neg (by simp [hconn]), transmitCommand,
      encodeFrame_ok HELLO st.currentNonce [] (by norm_num [HELLO]) hn
        (by simp)]
    rfl
  · rw [sendStop, if_neg (by simp [hconn]), transmitCommand,
      encodeFrame_ok STOP_CMD st.currentNonce [] (by norm_num [STOP_CMD]) hn
        (by simp)]
    rfl
  · rw [sendDump, if_neg (by simp [hconn]), if_neg hlast, transmitCommand,
      encodeFrame_ok DUMP st.currentNonce [] (by norm_num [DUMP]) hn
        (by simp)]
    rfl

/-- Witness for claim C5: in the state where the first HELLO exchange is still
pending, all three send methods would transmit. -/
theorem c5_witness :
    (sendHello pendingHelloState).toOption.isSome = true ∧
    (sendStop pendingHelloState).toOption.isSome = true ∧
    (pendingHelloState.lastCommand ≠ none →
      (sendDump pendingHelloState).toOption.isSome = true) :=
  c5_no_concurrent_send_guard pendingHelloState rfl (by decide)

/-- Counterexample for claim C6: the yielded frame sequence does *not* depend
only on the concatenation of the chunks.  With a malformed envelope
followed by a valid one, feeding both in one chunk yields no frame (the
loop stops at the error, leaving the valid envelope buffered), while
feeding them as two chunks yields the valid frame on the second call. -/
theorem c6_counterexample :
    framesOf (feedChunks pendingHelloState [shortEnv ++ helloAck1Env]).2
      = [] ∧
    framesOf (feedChunks pendingHelloState [shortEnv, helloAck1Env]).2
      = [helloAck1Frame] := by decide

/-- Claim C6 amended — as long as processing the concatenated bytes emits no
`error` event, the emitted events (in particular the decoded frames, in
wire order) and the resulting state depend only on the concatenation of
the chunks: feeding any nonempty chunk sequence equals feeding the whole
concatenation at once. -/
theorem c6_chunking_invariant (st : ClientState) (chunks : List (List Nat))
    (hc : chunks ≠ [])
    (hne : ((handleIncomingData st chunks.flatten).2.all isFrameEvent)
      = true) :
    feedChunks st chunks = handleIncomingData st chunks.flatten ∧
    framesOf (feedChunks st chunks).2 =
      framesOf (handleIncomingData st chunks.flatten).2 := by
  have h := feedChunks_eq_flatten chunks st hc hne
  exact ⟨h, by rw [h]⟩

/-- Witness for claim C6: one valid envelope split into a 10-byte chunk and its
remainder behaves exactly like the whole envelope at once. -/
theorem c6_witness :
    feedChunks pendingHelloState
        [helloAck1Env.take 10, helloAck1Env.drop 10] =
      handleIncomingData pendingHelloState
        ([helloAck1Env.take 10, helloAck1Env.drop 10] :
          List (List Nat)).flatten ∧
    framesOf (feedChunks pendingHelloState
        [helloAck1Env.take 10, helloAck1Env.drop 10]).2 =
      framesOf (handleIncomingData pendingHelloState
        ([helloAck1Env.take 10, helloAck1Env.drop 10] :
          List (List Nat)).flatten).2 :=
  c6_chunking_invariant pendingHelloState
    [helloAck1Env.take 10, helloAck1Env.drop 10] (by simp) (by decide)

/-- Claim C7 — the nonce counter is set to 0 by the `connect()` success
callback, advances by exactly 2 on every transmitted command (the
increment happens at transmit time, before any response — hence
regardless of the command's eventual outcome), and is never changed by
response processing or by `disconnect()`: it is never decremented and
never reset except on reconnect. -/
theorem c7_nonce_counter :
    (∀ st, (connectSuccess st).currentNonce = 0) ∧
    (∀ st st' w, sendHello st = .ok (st', w) →
      st'.currentNonce = st.currentNonce + 2) ∧
    (∀ st st' w, sendDump st = .ok (st', w) →
      st'.currentNonce = st.currentNonce + 2) ∧
    (∀ st st' w, sendStop st = .ok (st', w) →
      st'.currentNonce = st.currentNonce + 2) ∧
    (∀ st data, (handleIncomingData st data).1.currentNonce =
      st.currentNonce) ∧
    (∀ st, (disconnect st).currentNonce = st.currentNonce) := by
  refine ⟨fun _ => rfl, fun st st' w h => ?_, fun st st' w h => ?_,
    fun st st' w h => ?_, fun _ _ => rfl, fun _ => rfl⟩
  · rw [sendHello] at h
    split_ifs at h
    exact transmitCommand_nonce _ _ _ _ _ h
  · rw [sendDump] at h
    split_ifs at h
    exact transmitCommand_nonce _ _ _ _ _ h
  · rw [sendStop] at h
    split_ifs at h
    exact transmitCommand_nonce _ _ _ _ _ h

/-- Witness for claim C7: the first `sendHello()` takes the fresh counter from 0
to 2. -/
theorem c7_witness :
    pendingHelloState.currentNonce = freshState.currentNonce + 2 :=
  c7_nonce_counter.2.1 freshState pendingHelloState helloEnv (by decide)

/-- Claim C10 — with no prior command, `sendDump()` fails with the
HELLO-required error, but `sendStop()` is allowed; once STOP transmits it
sets `lastCommand`, so a subsequent `sendDump()` on the same connection no
longer fails with that error — the precondition only checks that *some*
command was previously dispatched. -/
theorem c10_stop_enables_dump (st : ClientState)
    (hconn : st.isConnected = true) (hlast : st.lastCommand = none)
    (hn : st.currentNonce + 2 ≤ 4294967295) :
    (sendDump st = .error .helloRequired) ∧
    (sendStop st).toOption.isSome = true ∧
    (∀ st' w, sendStop st = .ok (st', w) →
      st'.lastCommand = some .STOP_CMD ∧
      sendDump st' ≠ .error .helloRequired ∧
      (sendDump st').toOption.isSome = true) := by
  have hstop : sendStop st =
      .ok ((⟨st.isConnected, st.currentNonce + 2,
              some LastCommand.STOP_CMD, st.dumpCounter,
              st.incomingBuffer⟩ : ClientState),
           uint16BEBytes (bufferToBase64 (binaryFrameOf STOP_CMD
             st.currentNonce [])).length ++
           bufferToBase64 (binaryFrameOf STOP_CMD st.currentNonce [])) := by
    rw [sendStop, if_neg (by simp [hconn]), transmitCommand,
      encodeFrame_ok STOP_CMD st.currentNonce [] (by norm_num [STOP_CMD])
        (by omega) (by simp)]
    rfl
  refine ⟨?_, by rw [hstop]; rfl, fun st' w h => ?_⟩
  · rw [sendDump, if_neg (by simp [hconn]), if_pos hlast]
  · rw [hstop] at h
    simp only [Except.ok.injEq, Prod.mk.injEq] at h
    rw [← h.1]
    refine ⟨rfl, ?_, ?_⟩ <;>
      rw [sendDump, if_neg (by simp [hconn]), if_neg (by simp),
        transmitCommand,
        encodeFrame_ok DUMP (st.currentNonce + 2) [] (by norm_num [DUMP])
          (by omega) (by simp)] <;>
      simp [Except.map, Except.toOption]

/-- Witness for claim C10: on a fresh connection, DUMP is rejected, STOP
transmits, and DUMP succeeds right after STOP. -/
theorem c10_witness :
    sendDump freshState = .error .helloRequired ∧
    (sendDump (⟨true, 2, some .STOP_CMD, 0, []⟩ :
      ClientState)).toOption.isSome = true :=
  ⟨(c10_stop_enables_dump freshState rfl rfl (by decide)).1,
   ((c10_stop_enables_dump freshState rfl rfl (by decide)).2.2
     ⟨true, 2, some .STOP_CMD, 0, []⟩ stopEnv (by decide)).2.2⟩

end MiniTel
